/-
Verification development for the weather-data retrieval and caching
subsystem of the cli_api_test repository (src/weather_app.py).

Shallow embedding conventions:
- JSON documents are modelled by the inductive type Json below; Python
  floats are modelled as rationals.
- The retrying HTTP fetcher is modelled as a function over a stream of
  attempt outcomes (one outcome per outbound request); sleeping is
  modelled by recording the slept delay in a trace.
- The backing cache file is modelled as an Option Json (none stands for
  a missing, unreadable or unparseable file); a raised exception is
  modelled as an Except.error value.
- Typed cache entries (structure CacheEntry) mirror the entry dict
  written by the save routine: city (string or null), lat and lon
  (number or null), fetched_at, weather_data.
-/

import Mathlib

/-! ## JSON values -/

inductive Json where
  | null : Json
  | bool (b : Bool) : Json
  | num (q : ℚ) : Json
  | str (s : String) : Json
  | arr (elems : List Json) : Json
  | obj (fields : List (String × Json)) : Json

/-- Association-list lookup, modelling Python dict key lookup. -/
def lookupAssoc {α : Type} : List (String × α) → String → Option α
  | [], _ => none
  | (k2, v) :: rest, k => if k2 == k then some v else lookupAssoc rest k

/-! ## Retrying HTTP fetcher (_make_request_with_retry) -/

structure Response where
  status : Nat
  body : Json

/-- Outcome of one call to requests.get: a response, or a raised
connection or timeout exception carrying a message. -/
inductive AttemptOutcome where
  | resp (r : Response) : AttemptOutcome
  | connError (msg : String) : AttemptOutcome
  | timeoutError (msg : String) : AttemptOutcome

/-- Exception raised by the retrying fetcher after exhausting attempts,
carrying the last underlying cause (last status, or last exception
message). -/
inductive RetryError where
  | serverExhausted (tries : Nat) (lastStatus : Nat) : RetryError
  | netExhausted (tries : Nat) (cause : String) : RetryError
  | noRequest : RetryError

structure RunResult where
  result : Except RetryError Response
  delays : List ℚ
  attemptsMade : Nat

/-- Statuses the source retries on: 429 or any 5xx. -/
def retryable (s : Nat) : Bool :=
  s == 429 || (decide (500 ≤ s) && decide (s < 600))

/-- Loop body of _make_request_with_retry. The fuel argument counts the
remaining loop iterations (max_retries - attempt); delays is the trace
of sleeps performed so far; attemptsMade counts requests.get calls. -/
def retryGo (attempts : Nat → AttemptOutcome) (maxRetries : Nat) (baseDelay : ℚ) :
    Nat → Nat → List ℚ → RunResult
  | 0, attempt, delays => ⟨Except.error RetryError.noRequest, delays, attempt⟩
  | fuel + 1, attempt, delays =>
    match attempts attempt with
    | AttemptOutcome.resp r =>
      if r.status == 200 then ⟨Except.ok r, delays, attempt + 1⟩
      else if retryable r.status then
        if attempt < maxRetries - 1 then
          retryGo attempts maxRetries baseDelay fuel (attempt + 1)
            (delays ++ [baseDelay * 2 ^ attempt])
        else ⟨Except.error (RetryError.serverExhausted maxRetries r.status), delays, attempt + 1⟩
      else ⟨Except.ok r, delays, attempt + 1⟩
    | AttemptOutcome.connError m =>
      if attempt < maxRetries - 1 then
        retryGo attempts maxRetries baseDelay fuel (attempt + 1)
          (delays ++ [baseDelay * 2 ^ attempt])
      else ⟨Except.error (RetryError.netExhausted maxRetries m), delays, attempt + 1⟩
    | AttemptOutcome.timeoutError m =>
      if attempt < maxRetries - 1 then
        retryGo attempts maxRetries baseDelay fuel (attempt + 1)
          (delays ++ [baseDelay * 2 ^ attempt])
      else ⟨Except.error (RetryError.netExhausted maxRetries m), delays, attempt + 1⟩

/-- Model of _make_request_with_retry (source defaults: max_retries = 3,
base_delay = 1.0). -/
def makeRequestWithRetry (attempts : Nat → AttemptOutcome) (maxRetries : Nat)
    (baseDelay : ℚ) : RunResult :=
  retryGo attempts maxRetries baseDelay maxRetries 0 []

/-- Retryable attempt outcome as the spec describes it: HTTP 429, any
5xx, a connection failure, or a timeout. -/
def retryableOutcome : AttemptOutcome → Prop
  | AttemptOutcome.resp r => retryable r.status = true
  | AttemptOutcome.connError _ => True
  | AttemptOutcome.timeoutError _ => True

instance (o : AttemptOutcome) : Decidable (retryableOutcome o) := by
  cases o <;> simp [retryableOutcome] <;> infer_instance

/-- Error the exhausted fetcher raises, as a function of the outcome of
the final attempt. -/
def exhaustErr (tries : Nat) : AttemptOutcome → RetryError
  | AttemptOutcome.resp r => RetryError.serverExhausted tries r.status
  | AttemptOutcome.connError m => RetryError.netExhausted tries m
  | AttemptOutcome.timeoutError m => RetryError.netExhausted tries m

/-- Delay trace produced by exponential backoff with no jitter. -/
def backoffPattern (baseDelay : ℚ) (k : Nat) : List ℚ :=
  (List.range k).map fun i => baseDelay * 2 ^ i

/-! ## Cache file loading and saving (_load_cache, _save_cache_entry) -/

/-- Model of _load_cache. The argument is the backing file: none stands
for a missing, unreadable or JSON-unparseable file. The result is the
Python return value (canonically an array; the raw cache field value is
returned unchanged, as the source does). -/
def loadCache : Option Json → Json
  | none => Json.arr []
  | some d =>
    match d with
    | Json.obj fields =>
      if (lookupAssoc fields "weather_data").isSome then Json.arr [Json.obj fields]
      else
        match lookupAssoc fields "cache" with
        | some v => v
        | none => Json.arr []
    | Json.arr l => Json.arr l
    | _ => Json.arr []

/-- Cache entry dict built by _save_cache_entry, field order as in the
source. -/
def mkEntryJson (data : Json) (city : Option String) (latJ lonJ : Json)
    (now : String) : Json :=
  Json.obj [("city", match city with | some c => Json.str c | none => Json.null),
            ("lat", latJ), ("lon", lonJ),
            ("fetched_at", Json.str now), ("weather_data", data)]

/-- In-memory list update performed by _save_cache_entry: prepend, then
truncate to MAX_CACHE_SIZE = 10 when the cap is exceeded. -/
def saveStep (e : Json) (l : List Json) : List Json :=
  let l2 := e :: l
  if l2.length > 10 then l2.take 10 else l2

/-- Canonical file shape written by _save_cache_entry. -/
def dumpCache (l : List Json) : Json :=
  Json.obj [("cache", Json.arr l)]

/-- Model of _save_cache_entry. ioFails models an IOError raised by the
file write, which the source swallows, leaving the file unchanged. A
loaded cache value that is not a list makes the source raise an
uncaught AttributeError on list insertion, modelled as Except.error. -/
def saveCacheEntry (data : Json) (city : Option String) (latJ lonJ : Json)
    (now : String) (file : Option Json) (ioFails : Bool) :
    Except String (Option Json) :=
  match loadCache file with
  | Json.arr cacheList =>
    Except.ok (if ioFails then file
      else some (dumpCache (saveStep (mkEntryJson data city latJ lonJ now) cacheList)))
  | _ => Except.error "AttributeError"

/-! ## Cache lookup (_find_in_cache_by_city, _find_in_cache_by_coordinates) -/

/-- Typed view of a cache entry, per the fields the save routine writes. -/
structure CacheEntry where
  city : Option String
  lat : Option ℚ
  lon : Option ℚ
  fetched_at : String
  weather_data : Json

/-- Filter condition of _find_in_cache_by_city: entry.get("city") is
truthy (present and non-empty) and matches the query case-insensitively. -/
def cityMatches (query : String) (e : CacheEntry) : Bool :=
  match e.city with
  | some c => (!(c == "")) && (c.toLower == query.toLower)
  | none => false

/-- Model of _find_in_cache_by_city: collect matches, return the first
(freshest) match, or none. -/
def findInCacheByCity (city : String) (cacheList : List CacheEntry) : Option Json :=
  match cacheList.filter (cityMatches city) with
  | [] => none
  | m :: _ => some m.weather_data

/-- Filter condition of _find_in_cache_by_coordinates: both coordinates
present and each within tolerance, independently per axis. -/
def coordMatches (lat lon tolerance : ℚ) (e : CacheEntry) : Bool :=
  match e.lat, e.lon with
  | some elat, some elon =>
    decide (|elat - lat| ≤ tolerance) && decide (|elon - lon| ≤ tolerance)
  | _, _ => false

/-- Model of _find_in_cache_by_coordinates (source default tolerance
0.01). -/
def findInCacheByCoordinates (lat lon tolerance : ℚ)
    (cacheList : List CacheEntry) : Option Json :=
  match cacheList.filter (coordMatches lat lon tolerance) with
  | [] => none
  | m :: _ => some m.weather_data

def defaultTolerance : ℚ := 1 / 100

/-! ## Current-weather fetchers (get_weather_by_city, get_weather_by_coordinates) -/

inductive FetchError where
  | valueError (msg : Json) : FetchError
  | requestError (msg : String) : FetchError
  | uncaught (msg : String) : FetchError

/-- Python truthiness test `not API_KEY`: unset or empty. -/
def apiKeyMissing : Option String → Bool
  | none => true
  | some k => k == ""

/-- Rewrite of the upstream city-not-found message, substring test as in
the source. -/
def russify (m : String) : String :=
  if (m.toLower.splitOn "city not found").length > 1 then
    "Город с таким названием не найден"
  else m

/-- Error message selection of the non-200 branch. A non-string message
value is kept raw: the source assigns it, then the substring test raises
and is swallowed by the bare except, keeping the assigned value. -/
def apiErrorMsg (status : Nat) (body : Json) : Json :=
  match body with
  | Json.obj fields =>
    match lookupAssoc fields "message" with
    | some (Json.str m) => Json.str (russify m)
    | some v => v
    | none => Json.str ("Ошибка API: статус " ++ toString status)
  | _ => Json.str ("Ошибка API: статус " ++ toString status)

/-- Message carried by the re-raised RequestException. -/
def retryErrMsg : RetryError → String
  | RetryError.serverExhausted t s =>
    "Ошибка сервера после " ++ toString t ++ " попыток: " ++ toString s
  | RetryError.netExhausted t m =>
    "Сетевая ошибка после " ++ toString t ++ " попыток: " ++ m
  | RetryError.noRequest => "Не удалось выполнить запрос"

/-- Extraction data.get("coord", {}).get("lat") / .get("lon") in
get_weather_by_city; raises (uncaught) when the body or its coord field
is not a dict. -/
def coordOf (data : Json) : Except String (Json × Json) :=
  match data with
  | Json.obj fields =>
    match (lookupAssoc fields "coord").getD (Json.obj []) with
    | Json.obj cf =>
      Except.ok ((lookupAssoc cf "lat").getD Json.null,
                 (lookupAssoc cf "lon").getD Json.null)
    | _ => Except.error "AttributeError"
  | _ => Except.error "AttributeError"

/-- Model of get_weather_by_city. Returns the call result and the new
backing-file state. -/
def getWeatherByCity (apiKey : Option String) (city : String)
    (attempts : Nat → AttemptOutcome) (file : Option Json) (ioFails : Bool)
    (now : String) : Except FetchError Json × Option Json :=
  if apiKeyMissing apiKey then
    (Except.error (FetchError.valueError (Json.str
      "API ключ не найден. Убедитесь, что файл .env содержит API_KEY")), file)
  else if city == "" then
    (Except.error (FetchError.valueError (Json.str
      "Название города не может быть пустым")), file)
  else
    match (makeRequestWithRetry attempts 3 1).result with
    | Except.error e =>
      (Except.error (FetchError.requestError ("Сетевая ошибка: " ++ retryErrMsg e)), file)
    | Except.ok r =>
      if r.status != 200 then
        (Except.error (FetchError.valueError (apiErrorMsg r.status r.body)), file)
      else
        match coordOf r.body with
        | Except.error m => (Except.error (FetchError.uncaught m), file)
        | Except.ok (latJ, lonJ) =>
          match saveCacheEntry r.body (some city) latJ lonJ now file ioFails with
          | Except.ok newFile => (Except.ok r.body, newFile)
          | Except.error m => (Except.error (FetchError.uncaught m), file)

/-- Model of get_weather_by_coordinates. -/
def getWeatherByCoordinates (apiKey : Option String) (lat lon : ℚ)
    (attempts : Nat → AttemptOutcome) (file : Option Json) (ioFails : Bool)
    (now : String) : Except FetchError Json × Option Json :=
  if apiKeyMissing apiKey then
    (Except.error (FetchError.valueError (Json.str
      "API ключ не найден. Убедитесь, что файл .env содержит API_KEY")), file)
  else
    match (makeRequestWithRetry attempts 3 1).result with
    | Except.error e =>
      (Except.error (FetchError.requestError ("Сетевая ошибка: " ++ retryErrMsg e)), file)
    | Except.ok r =>
      if r.status != 200 then
        (Except.error (FetchError.valueError (apiErrorMsg r.status r.body)), file)
      else
        match saveCacheEntry r.body none (Json.num lat) (Json.num lon) now file ioFails with
        | Except.ok newFile => (Except.ok r.body, newFile)
        | Except.error m => (Except.error (FetchError.uncaught m), file)

/-! ## Air-quality classifier (analyze_air_pollution) -/

structure AqiBracket where
  lo : ℚ
  hi : Option ℚ
  index : Nat
  status : String
deriving DecidableEq

/-- Conversion table AQI_LEVELS of the source; hi = none models the
unbounded top bracket (float inf). -/
def aqiLevels : List (String × List AqiBracket) :=
  [("so2",
    [⟨0, some 20, 1, "Хорошо"⟩, ⟨20, some 80, 2, "Удовлетворительно"⟩,
     ⟨80, some 250, 3, "Умеренно"⟩, ⟨250, some 350, 4, "Плохо"⟩,
     ⟨350, none, 5, "Очень плохо"⟩]),
   ("no2",
    [⟨0, some 40, 1, "Хорошо"⟩, ⟨40, some 70, 2, "Удовлетворительно"⟩,
     ⟨70, some 150, 3, "Умеренно"⟩, ⟨150, some 200, 4, "Плохо"⟩,
     ⟨200, none, 5, "Очень плохо"⟩]),
   ("pm10",
    [⟨0, some 20, 1, "Хорошо"⟩, ⟨20, some 50, 2, "Удовлетворительно"⟩,
     ⟨50, some 100, 3, "Умеренно"⟩, ⟨100, some 200, 4, "Плохо"⟩,
     ⟨200, none, 5, "Очень плохо"⟩]),
   ("pm2_5",
    [⟨0, some 10, 1, "Хорошо"⟩, ⟨10, some 25, 2, "Удовлетворительно"⟩,
     ⟨25, some 50, 3, "Умеренно"⟩, ⟨50, some 75, 4, "Плохо"⟩,
     ⟨75, none, 5, "Очень плохо"⟩]),
   ("o3",
    [⟨0, some 60, 1, "Хорошо"⟩, ⟨60, some 100, 2, "Удовлетворительно"⟩,
     ⟨100, some 140, 3, "Умеренно"⟩, ⟨140, some 180, 4, "Плохо"⟩,
     ⟨180, none, 5, "Очень плохо"⟩]),
   ("co",
    [⟨0, some 4400, 1, "Хорошо"⟩, ⟨4400, some 9400, 2, "Удовлетворительно"⟩,
     ⟨9400, some 12400, 3, "Умеренно"⟩, ⟨12400, some 15400, 4, "Плохо"⟩,
     ⟨15400, none, 5, "Очень плохо"⟩])]

/-- Display names COMPONENT_NAMES of the source. -/
def componentNames : List (String × String) :=
  [("so2", "SO2"), ("no2", "NO2"), ("pm10", "PM10"),
   ("pm2_5", "PM2.5"), ("o3", "O3"), ("co", "CO")]

/-- Bracket membership test: lower bound inclusive, upper bound
exclusive, top bracket unbounded above. -/
def inBracket (v : ℚ) (b : AqiBracket) : Bool :=
  decide (b.lo ≤ v) && (match b.hi with | none => true | some m => decide (v < m))

/-- First bracket a value falls into. -/
def classifyValue (brs : List AqiBracket) (v : ℚ) : Option AqiBracket :=
  brs.find? (inBracket v)

/-- Per-pollutant classification record (value, index, status, name). -/
structure PollLevel where
  value : ℚ
  index : Nat
  status : String
  name : String
deriving DecidableEq

/-- Loop state of analyze_air_pollution: the component_levels dict in
insertion order, and the running worst index and status. -/
structure AnalyzeState where
  levels : List (String × PollLevel)
  maxIndex : Nat
  maxStatus : String

/-- Per-item classification of the loop body: the pollutant key must be
in the table and the value non-null, and the value must fall into some
bracket; the record fields (value, index, status, display name) are
those the source stores in component_levels. -/
def classifyItem (k : String) (v : Option ℚ) : Option PollLevel :=
  match lookupAssoc aqiLevels k, v with
  | some brs, some val =>
    match classifyValue brs val with
    | some b =>
      some ⟨val, b.index, b.status, (lookupAssoc componentNames k).getD k.toUpper⟩
    | none => none
  | _, _ => none

/-- Loop body of analyze_air_pollution over one components item: record
whatever classifyItem yields and update the running worst index and
status on strict improvement. -/
def classifyStep (st : AnalyzeState) (kv : String × Option ℚ) : AnalyzeState :=
  match classifyItem kv.1 kv.2 with
  | some lvl =>
    ⟨st.levels ++ [(kv.1, lvl)],
     if lvl.index > st.maxIndex then lvl.index else st.maxIndex,
     if lvl.index > st.maxIndex then lvl.status else st.maxStatus⟩
  | none => st

/-- Stable insertion for descending sort by index: skip strictly larger
elements only, so that on ties the inserted (earlier) element stays
first. -/
def insertByIndexDesc (x : PollLevel) : List PollLevel → List PollLevel
  | [] => [x]
  | y :: ys => if y.index > x.index then y :: insertByIndexDesc x ys else x :: y :: ys

/-- Stable descending sort by index, modelling the stable
list.sort(key=index, reverse=True) of the source. -/
def sortByIndexDesc : List PollLevel → List PollLevel
  | [] => []
  | x :: xs => insertByIndexDesc x (sortByIndexDesc xs)

/-- Result of analyze_air_pollution; the two extended fields are present
only when extended is requested. -/
structure AirAnalysis where
  overall_status : String
  overall_index : Nat
  exceeded_norms : Option (List PollLevel)
  component_levels : Option (List (String × PollLevel))

/-- Model of analyze_air_pollution. -/
def analyzeAirPollution (components : List (String × Option ℚ))
    (extended : Bool) : AirAnalysis :=
  let st := components.foldl classifyStep ⟨[], 1, "Хорошо"⟩
  { overall_status := st.maxStatus
    overall_index := st.maxIndex
    exceeded_norms :=
      if extended then
        some (sortByIndexDesc ((st.levels.map Prod.snd).filter (fun l => decide (l.index ≥ 2))))
      else none
    component_levels := if extended then some st.levels else none }

/-! ## Specification-side derived definitions -/

/-- Classification list in components order (the per-pollutant map as a
sequence). -/
def levelsAssocOf : List (String × Option ℚ) → List (String × PollLevel)
  | [] => []
  | (k, v) :: rest =>
    match classifyItem k v with
    | some lvl => (k, lvl) :: levelsAssocOf rest
    | none => levelsAssocOf rest

def levelsOf (comps : List (String × Option ℚ)) : List PollLevel :=
  (levelsAssocOf comps).map Prod.snd

/-- Worst classified tier, with the default tier 1. -/
def maxIndexOf (comps : List (String × Option ℚ)) : Nat :=
  (levelsOf comps).foldl (fun m l => max m l.index) 1

/-- Strict-improvement step computing the worst (index, status) pair. -/
def overallStep (p : Nat × String) (l : PollLevel) : Nat × String :=
  if l.index > p.1 then (l.index, l.status) else p

def listMaxFrom (ls : List PollLevel) (m0 : Nat) : Nat :=
  ls.foldl (fun m l => max m l.index) m0

/-- Pollutants of one tier, in original order. -/
def tierBucket (t : Nat) (ls : List PollLevel) : List PollLevel :=
  ls.filter (fun l => l.index == t)

/-! ## Lemmas about the retrying fetcher -/

lemma retryGo_attemptsMade_le (attempts : Nat → AttemptOutcome) (mr : Nat) (bd : ℚ) :
    ∀ fuel attempt delays,
      (retryGo attempts mr bd fuel attempt delays).attemptsMade ≤ attempt + fuel := by
  intro fuel
  induction fuel with
  | zero => intro a d; simp [retryGo]
  | succ n ih =>
    intro a d
    simp only [retryGo]
    cases h : attempts a with
    | resp r =>
      by_cases h200 : r.status == 200
      · simp [h200]
      · by_cases hr : retryable r.status
        · by_cases hlt : a < mr - 1
          · simp only [h200, hr, hlt, if_true, if_false, Bool.false_eq_true]
            exact le_trans (ih (a + 1) _) (by omega)
          · simp [h200, hr, hlt]
        · simp [h200, hr]
    | connError m =>
      by_cases hlt : a < mr - 1
      · simp only [hlt, if_true]
        exact le_trans (ih (a + 1) _) (by omega)
      · simp [hlt]
    | timeoutError m =>
      by_cases hlt : a < mr - 1
      · simp only [hlt, if_true]
        exact le_trans (ih (a + 1) _) (by omega)
      · simp [hlt]

lemma backoffPattern_succ (bd : ℚ) (a : Nat) :
    backoffPattern bd a ++ [bd * 2 ^ a] = backoffPattern bd (a + 1) := by
  simp [backoffPattern, List.range_succ]

lemma retryGo_delays_pattern (attempts : Nat → AttemptOutcome) (mr : Nat) (bd : ℚ) :
    ∀ fuel attempt,
      ∃ k, (retryGo attempts mr bd fuel attempt (backoffPattern bd attempt)).delays
            = backoffPattern bd k := by
  intro fuel
  induction fuel with
  | zero => intro a; exact ⟨a, rfl⟩
  | succ n ih =>
    intro a
    simp only [retryGo]
    cases h : attempts a with
    | resp r =>
      by_cases h200 : r.status == 200
      · simp only [h200, if_true]; exact ⟨a, rfl⟩
      · by_cases hr : retryable r.status
        · by_cases hlt : a < mr - 1
          · simp only [h200, hr, hlt, if_true, if_false, Bool.false_eq_true,
              backoffPattern_succ]
            exact ih (a + 1)
          · simp only [h200, hr, hlt, if_false, if_true, Bool.false_eq_true]
            exact ⟨a, rfl⟩
        · simp only [h200, hr, if_false, Bool.false_eq_true]
          exact ⟨a, rfl⟩
    | connError m =>
      by_cases hlt : a < mr - 1
      · simp only [hlt, if_true, backoffPattern_succ]
        exact ih (a + 1)
      · simp only [hlt, if_false]
        exact ⟨a, rfl⟩
    | timeoutError m =>
      by_cases hlt : a < mr - 1
      · simp only [hlt, if_true, backoffPattern_succ]
        exact ih (a + 1)
      · simp only [hlt, if_false]
        exact ⟨a, rfl⟩

lemma makeRequestWithRetry_delays_pattern (attempts : Nat → AttemptOutcome)
    (mr : Nat) (bd : ℚ) :
    ∃ k, (makeRequestWithRetry attempts mr bd).delays = backoffPattern bd k := by
  have h := retryGo_delays_pattern attempts mr bd mr 0
  simpa [makeRequestWithRetry, backoffPattern] using h

lemma retryable_ne_200 {s : Nat} (h : retryable s = true) : (s == 200) = false := by
  simp only [retryable, Bool.or_eq_true, beq_iff_eq, Bool.and_eq_true, decide_eq_true_eq] at h
  simp only [beq_eq_false_iff_ne, ne_eq]
  omega

lemma retryGo_exhaust (attempts : Nat → AttemptOutcome) (mr : Nat) (bd : ℚ) :
    ∀ fuel attempt delays, fuel ≠ 0 → attempt + fuel = mr →
      (∀ i, attempt ≤ i → i < mr → retryableOutcome (attempts i)) →
      (retryGo attempts mr bd fuel attempt delays).result
          = Except.error (exhaustErr mr (attempts (mr - 1)))
        ∧ (retryGo attempts mr bd fuel attempt delays).attemptsMade = mr := by
  intro fuel
  induction fuel with
  | zero => intro a d h; exact absurd rfl h
  | succ n ih =>
    intro a d _ hsum hall
    have ha := hall a (le_refl a) (by omega)
    simp only [retryGo]
    cases n with
    | zero =>
      have haeq : a = mr - 1 := by omega
      have hlt : ¬ a < mr - 1 := by omega
      cases hAtt : attempts a with
      | resp r =>
        rw [hAtt] at ha
        simp only [retryableOutcome] at ha
        have h200 := retryable_ne_200 ha
        simp only [h200, ha, hlt, if_true, if_false, Bool.false_eq_true,
          reduceCtorEq, reduceIte]
        rw [haeq] at hAtt
        rw [hAtt]
        exact ⟨rfl, by omega⟩
      | connError m =>
        simp only [hlt, reduceIte]
        rw [haeq] at hAtt
        rw [hAtt]
        exact ⟨rfl, by omega⟩
      | timeoutError m =>
        simp only [hlt, reduceIte]
        rw [haeq] at hAtt
        rw [hAtt]
        exact ⟨rfl, by omega⟩
    | succ k =>
      have hlt : a < mr - 1 := by omega
      have ihs := ih (a + 1) (d ++ [bd * 2 ^ a]) (by omega) (by omega)
        (fun i hi1 hi2 => hall i (by omega) hi2)
      cases hAtt : attempts a with
      | resp r =>
        rw [hAtt] at ha
        simp only [retryableOutcome] at ha
        have h200 := retryable_ne_200 ha
        simp only [h200, ha, hlt, if_true, if_false, Bool.false_eq_true, reduceIte]
        exact ihs
      | connError m =>
        simp only [hlt, reduceIte]
        exact ihs
      | timeoutError m =>
        simp only [hlt, reduceIte]
        exact ihs

/-- C2: with the default max_retries = 3, the fetcher makes at most 3
attempts; on statuses 429, 500, 200 it returns the third (200) response
after 3 attempts; when the first three outcomes are all retryable it
makes exactly 3 attempts and raises an error carrying the cause of the
last attempt instead of returning a response. -/
theorem c2_retry_attempt_budget :
    (∀ (b0 b1 b2 : Json) (attempts : Nat → AttemptOutcome),
        attempts 0 = AttemptOutcome.resp ⟨429, b0⟩ →
        attempts 1 = AttemptOutcome.resp ⟨500, b1⟩ →
        attempts 2 = AttemptOutcome.resp ⟨200, b2⟩ →
        (makeRequestWithRetry attempts 3 1).result = Except.ok ⟨200, b2⟩
          ∧ (makeRequestWithRetry attempts 3 1).attemptsMade = 3)
    ∧ (∀ attempts : Nat → AttemptOutcome,
        (∀ i, i < 3 → retryableOutcome (attempts i)) →
        (makeRequestWithRetry attempts 3 1).result
            = Except.error (exhaustErr 3 (attempts 2))
          ∧ (makeRequestWithRetry attempts 3 1).attemptsMade = 3)
    ∧ (∀ attempts : Nat → AttemptOutcome,
        (makeRequestWithRetry attempts 3 1).attemptsMade ≤ 3) := by
  refine ⟨?_, ?_, ?_⟩
  · intro b0 b1 b2 attempts h0 h1 h2
    refine ⟨?_, ?_⟩ <;>
      simp [makeRequestWithRetry, retryGo, h0, h1, h2, retryable]
  · intro attempts hall
    have h := retryGo_exhaust attempts 3 1 3 0 [] (by omega) (by omega)
      (fun i _ hi => hall i hi)
    simpa [makeRequestWithRetry] using h
  · intro attempts
    simpa [makeRequestWithRetry] using retryGo_attemptsMade_le attempts 3 1 3 0 []

/-- Witness for C2: three straight 500 responses exhaust the budget and
raise the server error carrying the last status. -/
theorem c2_retry_attempt_budget_witness :
    (makeRequestWithRetry (fun _ => AttemptOutcome.resp ⟨500, Json.null⟩) 3 1).result
        = Except.error (RetryError.serverExhausted 3 500)
      ∧ (makeRequestWithRetry (fun _ => AttemptOutcome.resp ⟨500, Json.null⟩) 3 1).attemptsMade
        = 3 :=
  c2_retry_attempt_budget.2.1 (fun _ => AttemptOutcome.resp ⟨500, Json.null⟩)
    (fun i _ => by simp [retryableOutcome, retryable])

/-- C3: with base_delay = 1 second the trace of slept delays is exactly
the jitter-free sequence base_delay * 2 ^ 0, base_delay * 2 ^ 1, ... as
long as the run retried; the delay slept at position n of the trace is
1 * 2 ^ n. -/
theorem c3_exponential_backoff :
    ∀ (attempts : Nat → AttemptOutcome) (mr : Nat),
      (∃ k, (makeRequestWithRetry attempts mr 1).delays
              = (List.range k).map fun i => (1 : ℚ) * 2 ^ i)
      ∧ ∀ i, i < (makeRequestWithRetry attempts mr 1).delays.length →
          (makeRequestWithRetry attempts mr 1).delays.get? i = some ((1 : ℚ) * 2 ^ i) := by
  intro attempts mr
  obtain ⟨k, hk⟩ := makeRequestWithRetry_delays_pattern attempts mr 1
  refine ⟨⟨k, by simpa [backoffPattern] using hk⟩, ?_⟩
  intro i hi
  rw [hk] at hi ⊢
  simp only [backoffPattern, List.length_map, List.length_range] at hi
  simp [backoffPattern, List.get?_eq_getElem?, hi]

/-- Witness for C3: a 500 followed by a 200 sleeps exactly once, for
1 * 2 ^ 0 seconds. -/
theorem c3_exponential_backoff_witness :
    (makeRequestWithRetry
        (fun n => if n = 0 then AttemptOutcome.resp ⟨500, Json.null⟩
          else AttemptOutcome.resp ⟨200, Json.null⟩) 3 1).delays.get? 0
      = some ((1 : ℚ) * 2 ^ 0) :=
  (c3_exponential_backoff
      (fun n => if n = 0 then AttemptOutcome.resp ⟨500, Json.null⟩
        else AttemptOutcome.resp ⟨200, Json.null⟩) 3).2 0 (by decide)

/-! ## Lemmas about the cache -/

lemma head?_filter_eq_find? {α : Type} (p : α → Bool) :
    ∀ l : List α, (l.filter p).head? = l.find? p := by
  intro l
  induction l with
  | nil => rfl
  | cons x xs ih =>
    by_cases h : p x <;> simp [List.filter_cons, List.find?_cons, h, ih]

lemma findInCacheByCity_eq_find? (city : String) (l : List CacheEntry) :
    findInCacheByCity city l
      = (l.find? (cityMatches city)).map CacheEntry.weather_data := by
  unfold findInCacheByCity
  rw [← head?_filter_eq_find?]
  cases l.filter (cityMatches city) <;> rfl

lemma findInCacheByCoordinates_eq_find? (lat lon tol : ℚ) (l : List CacheEntry) :
    findInCacheByCoordinates lat lon tol l
      = (l.find? (coordMatches lat lon tol)).map CacheEntry.weather_data := by
  unfold findInCacheByCoordinates
  rw [← head?_filter_eq_find?]
  cases l.filter (coordMatches lat lon tol) <;> rfl

lemma saveStep_eq_take (e : Json) (l : List Json) :
    saveStep e l = (e :: l).take 10 := by
  unfold saveStep
  by_cases h : (e :: l).length > 10
  · simp [h]
  · simp only [h, if_false]
    exact (List.take_of_length_le (by omega)).symm

lemma take_append_take (A B : List Json) (n : Nat) :
    (A ++ B.take n).take n = (A ++ B).take n := by
  rw [List.take_append_eq_append_take, List.take_append_eq_append_take, List.take_take]
  have : min (n - A.length) n = n - A.length := by omega
  rw [this]

lemma foldl_saveStep (es : List Json) (e : Json) :
    ∀ l0, (e :: es).foldl (fun l x => saveStep x l) l0
      = ((e :: es).reverse ++ l0).take 10 := by
  induction es generalizing e with
  | nil => intro l0; simp [saveStep_eq_take]
  | cons e2 es ih =>
    intro l0
    have step : (e :: e2 :: es).foldl (fun l x => saveStep x l) l0
        = (e2 :: es).foldl (fun l x => saveStep x l) (saveStep e l0) := rfl
    rw [step, ih e2 (saveStep e l0), saveStep_eq_take, take_append_take]
    simp [List.reverse_cons, List.append_assoc]

/-- C1: every save prepends the new entry and truncates to the 10
newest, so the stored list never exceeds 10 entries, the new entry sits
at position 0, a write of the canonical file records exactly that list,
any sequence of writes leaves the 10 most recent writes newest first,
and inserting 11 entries into an empty cache evicts the first-inserted
entry. -/
theorem c1_cache_bounded_eviction :
    (∀ (e : Json) (l : List Json),
        saveStep e l = (e :: l).take 10
        ∧ (saveStep e l).length ≤ 10
        ∧ (saveStep e l).head? = some e)
    ∧ (∀ (data : Json) (city : Option String) (latJ lonJ : Json) (now : String)
          (l : List Json),
        saveCacheEntry data city latJ lonJ now (some (dumpCache l)) false
          = Except.ok (some (dumpCache
              (saveStep (mkEntryJson data city latJ lonJ now) l))))
    ∧ (∀ (e : Json) (es l0 : List Json),
        (e :: es).foldl (fun l x => saveStep x l) l0
          = ((e :: es).reverse ++ l0).take 10)
    ∧ (∀ e1 e2 e3 e4 e5 e6 e7 e8 e9 e10 e11 : Json,
        [e1, e2, e3, e4, e5, e6, e7, e8, e9, e10, e11].foldl
            (fun l x => saveStep x l) []
          = [e11, e10, e9, e8, e7, e6, e5, e4, e3, e2]) := by
  refine ⟨?_, ?_, ?_, ?_⟩
  · intro e l
    refine ⟨saveStep_eq_take e l, ?_, ?_⟩
    · rw [saveStep_eq_take]
      exact List.length_take_le 10 (e :: l)
    · rw [saveStep_eq_take, List.take_succ_cons]
      rfl
  · intro data city latJ lonJ now l
    rfl
  · intro e es l0
    exact foldl_saveStep es e l0
  · intro e1 e2 e3 e4 e5 e6 e7 e8 e9 e10 e11
    simp [saveStep]

/-- C8: the loader accepts a bare single entry, a cache-wrapped object
and a bare list, normalizing each to the same one-element list; and
loading the file written by a save returns exactly the saved list. -/
theorem c8_loader_shapes_roundtrip :
    (∀ (data : Json) (city : Option String) (latJ lonJ : Json) (now : String),
        loadCache (some (mkEntryJson data city latJ lonJ now))
          = Json.arr [mkEntryJson data city latJ lonJ now]
        ∧ loadCache (some (Json.obj
              [("cache", Json.arr [mkEntryJson data city latJ lonJ now])]))
          = Json.arr [mkEntryJson data city latJ lonJ now]
        ∧ loadCache (some (Json.arr [mkEntryJson data city latJ lonJ now]))
          = Json.arr [mkEntryJson data city latJ lonJ now])
    ∧ (∀ (data : Json) (city : Option String) (latJ lonJ : Json) (now : String)
          (l : List Json),
        saveCacheEntry data city latJ lonJ now (some (dumpCache l)) false
          = Except.ok (some (dumpCache
              (saveStep (mkEntryJson data city latJ lonJ now) l)))
        ∧ loadCache (some (dumpCache
              (saveStep (mkEntryJson data city latJ lonJ now) l)))
          = Json.arr (saveStep (mkEntryJson data city latJ lonJ now) l)) := by
  refine ⟨?_, ?_⟩
  · intro data city latJ lonJ now
    exact ⟨rfl, rfl, rfl⟩
  · intro data city latJ lonJ now l
    exact ⟨rfl, rfl⟩

/-- C10: a missing, unreadable or unparseable file, and every
unrecognized top-level shape, load as the empty list, and both cache
lookups on an empty list return nothing. -/
theorem c10_loader_never_raises :
    loadCache none = Json.arr []
    ∧ loadCache (some Json.null) = Json.arr []
    ∧ (∀ b, loadCache (some (Json.bool b)) = Json.arr [])
    ∧ (∀ q : ℚ, loadCache (some (Json.num q)) = Json.arr [])
    ∧ (∀ s : String, loadCache (some (Json.str s)) = Json.arr [])
    ∧ (∀ fields : List (String × Json),
        lookupAssoc fields "weather_data" = none →
        lookupAssoc fields "cache" = none →
        loadCache (some (Json.obj fields)) = Json.arr [])
    ∧ (∀ city : String, findInCacheByCity city [] = none)
    ∧ (∀ lat lon tol : ℚ, findInCacheByCoordinates lat lon tol [] = none) := by
  refine ⟨rfl, rfl, fun b => rfl, fun q => rfl, fun s => rfl, ?_, fun city => rfl,
    fun lat lon tol => rfl⟩
  intro fields hw hc
  simp [loadCache, hw, hc]

/-- Witness for C10: an object with neither recognized key loads as the
empty list. -/
theorem c10_loader_never_raises_witness :
    loadCache (some (Json.obj [("foo", Json.null)])) = Json.arr [] :=
  c10_loader_never_raises.2.2.2.2.2.1 [("foo", Json.null)] rfl rfl

lemma cityMatches_congr (c1 c2 : String) (e : CacheEntry)
    (h : c1.toLower = c2.toLower) : cityMatches c1 e = cityMatches c2 e := by
  unfold cityMatches
  cases e.city with
  | none => rfl
  | some c => rw [h]

/-- C4: the coordinate lookup with tolerance 0.01 returns the weather
record of the first (most recently inserted) entry whose stored latitude
and longitude each lie within tolerance of the query, measured as
independent per-axis absolute differences, and nothing when no entry
matches on both axes. -/
theorem c4_find_by_coordinates :
    (∀ (lat lon : ℚ) (l1 l2 : List CacheEntry) (e : CacheEntry) (elat elon : ℚ),
        e.lat = some elat → e.lon = some elon →
        |elat - lat| ≤ defaultTolerance → |elon - lon| ≤ defaultTolerance →
        (∀ e2, e2 ∈ l1 → coordMatches lat lon defaultTolerance e2 = false) →
        findInCacheByCoordinates lat lon defaultTolerance (l1 ++ e :: l2)
          = some e.weather_data)
    ∧ (∀ (lat lon : ℚ) (l : List CacheEntry),
        (∀ e, e ∈ l → coordMatches lat lon defaultTolerance e = false) →
        findInCacheByCoordinates lat lon defaultTolerance l = none)
    ∧ (∀ (lat lon tol : ℚ) (e : CacheEntry) (elat elon : ℚ),
        e.lat = some elat → e.lon = some elon →
        (coordMatches lat lon tol e = true
          ↔ (|elat - lat| ≤ tol ∧ |elon - lon| ≤ tol)))
    ∧ (∀ (lat lon tol : ℚ) (e : CacheEntry),
        e.lat = none ∨ e.lon = none → coordMatches lat lon tol e = false) := by
  have hmatch : ∀ (lat lon tol : ℚ) (e : CacheEntry) (elat elon : ℚ),
      e.lat = some elat → e.lon = some elon →
      (coordMatches lat lon tol e = true
        ↔ (|elat - lat| ≤ tol ∧ |elon - lon| ≤ tol)) := by
    intro lat lon tol e elat elon h1 h2
    unfold coordMatches
    rw [h1, h2]
    simp
  refine ⟨?_, ?_, hmatch, ?_⟩
  · intro lat lon l1 l2 e elat elon h1 h2 hd1 hd2 hnone
    rw [findInCacheByCoordinates_eq_find?, List.find?_append,
      (List.find?_eq_none).mpr (fun x hx => by simp [hnone x hx]),
      List.find?_cons_of_pos _ ((hmatch lat lon defaultTolerance e elat elon h1 h2).mpr
        ⟨hd1, hd2⟩)]
    rfl
  · intro lat lon l hnone
    rw [findInCacheByCoordinates_eq_find?,
      (List.find?_eq_none).mpr (fun x hx => by simp [hnone x hx])]
    rfl
  · intro lat lon tol e h
    unfold coordMatches
    rcases h with h | h
    · rw [h]
    · rw [h]
      cases e.lat <;> rfl

/-- Witness for C4: a query at the exact stored coordinates returns that
single cached record. -/
theorem c4_find_by_coordinates_witness :
    findInCacheByCoordinates 1 1 defaultTolerance
        [⟨none, some 1, some 1, "t", Json.null⟩] = some Json.null :=
  c4_find_by_coordinates.1 1 1 [] [] ⟨none, some 1, some 1, "t", Json.null⟩ 1 1
    rfl rfl (by norm_num [defaultTolerance]) (by norm_num [defaultTolerance])
    (fun e2 h => absurd h (List.not_mem_nil e2))

/-- C5 counterexample: an entry whose stored city is the empty string
matches the empty query up to case, yet the lookup skips it (the source
requires a truthy stored name), returning nothing instead of its record. -/
theorem c5_counterexample_empty_city :
    (⟨some "", none, none, "t", Json.null⟩ : CacheEntry).city = some ""
    ∧ String.toLower "" = String.toLower ""
    ∧ findInCacheByCity "" [⟨some "", none, none, "t", Json.null⟩] = none
    ∧ findInCacheByCity "" [⟨some "", none, none, "t", Json.null⟩]
        ≠ some (⟨some "", none, none, "t", Json.null⟩ : CacheEntry).weather_data := by
  refine ⟨rfl, rfl, rfl, ?_⟩
  intro h
  exact Option.noConfusion h

/-- C5 (amended): queries differing only in case give the same result;
the result is the record of the first entry whose stored city name is
non-empty and equals the query up to case, with no timestamp
comparison, and nothing when no entry matches. -/
theorem c5_find_by_city_case_insensitive :
    (∀ (c1 c2 : String) (l : List CacheEntry), c1.toLower = c2.toLower →
        findInCacheByCity c1 l = findInCacheByCity c2 l)
    ∧ (∀ (city : String) (l1 l2 : List CacheEntry) (e : CacheEntry) (c : String),
        e.city = some c → c ≠ "" → c.toLower = city.toLower →
        (∀ e2, e2 ∈ l1 → cityMatches city e2 = false) →
        findInCacheByCity city (l1 ++ e :: l2) = some e.weather_data)
    ∧ (∀ (city : String) (l : List CacheEntry),
        (∀ e, e ∈ l → cityMatches city e = false) →
        findInCacheByCity city l = none)
    ∧ (∀ (city : String) (e : CacheEntry) (c : String), e.city = some c →
        (cityMatches city e = true ↔ (c ≠ "" ∧ c.toLower = city.toLower)))
    ∧ (∀ (city : String) (e : CacheEntry), e.city = none →
        cityMatches city e = false) := by
  have hmatch : ∀ (city : String) (e : CacheEntry) (c : String), e.city = some c →
      (cityMatches city e = true ↔ (c ≠ "" ∧ c.toLower = city.toLower)) := by
    intro city e c h
    unfold cityMatches
    rw [h]
    simp
  refine ⟨?_, ?_, ?_, hmatch, ?_⟩
  · intro c1 c2 l h
    have : l.filter (cityMatches c1) = l.filter (cityMatches c2) :=
      List.filter_congr (fun e _ => cityMatches_congr c1 c2 e h)
    unfold findInCacheByCity
    rw [this]
  · intro city l1 l2 e c hc hne hcase hnone
    rw [findInCacheByCity_eq_find?, List.find?_append,
      (List.find?_eq_none).mpr (fun x hx => by simp [hnone x hx]),
      List.find?_cons_of_pos _ ((hmatch city e c hc).mpr ⟨hne, hcase⟩)]
    rfl
  · intro city l hnone
    rw [findInCacheByCity_eq_find?,
      (List.find?_eq_none).mpr (fun x hx => by simp [hnone x hx])]
    rfl
  · intro city e h
    unfold cityMatches
    rw [h]

/-- Witness for C5: a query equal to the stored city name finds that
single cached record. -/
theorem c5_find_by_city_witness :
    findInCacheByCity "paris" [⟨some "paris", none, none, "t", Json.null⟩]
      = some Json.null :=
  c5_find_by_city_case_insensitive.2.1 "paris" [] []
    ⟨some "paris", none, none, "t", Json.null⟩ "paris" rfl (by decide) rfl
    (fun e2 h => absurd h (List.not_mem_nil e2))

/-- C9: a failed cache-file write is swallowed: the save routine returns
normally (leaving the file unchanged), and a current-weather fetch by
city or by coordinates that got a 200 response returns the fetched body
whether or not the cache write fails. -/
theorem c9_cache_write_failure_swallowed :
    (∀ (data : Json) (city : Option String) (latJ lonJ : Json) (now : String)
        (file : Option Json) (l : List Json) (ioFails : Bool),
        loadCache file = Json.arr l →
        saveCacheEntry data city latJ lonJ now file ioFails
          = Except.ok (if ioFails then file
              else some (dumpCache (saveStep (mkEntryJson data city latJ lonJ now) l))))
    ∧ (∀ (k : String) (lat lon : ℚ) (attempts : Nat → AttemptOutcome)
          (file : Option Json) (l : List Json) (r : Response) (now : String)
          (ioFails : Bool),
        k ≠ "" → loadCache file = Json.arr l →
        (makeRequestWithRetry attempts 3 1).result = Except.ok r →
        r.status = 200 →
        (getWeatherByCoordinates (some k) lat lon attempts file ioFails now).1
          = Except.ok r.body)
    ∧ (∀ (k city : String) (attempts : Nat → AttemptOutcome)
          (file : Option Json) (l : List Json) (r : Response)
          (latJ lonJ : Json) (now : String) (ioFails : Bool),
        k ≠ "" → city ≠ "" → loadCache file = Json.arr l →
        (makeRequestWithRetry attempts 3 1).result = Except.ok r →
        r.status = 200 →
        coordOf r.body = Except.ok (latJ, lonJ) →
        (getWeatherByCity (some k) city attempts file ioFails now).1
          = Except.ok r.body) := by
  have hsave : ∀ (data : Json) (city : Option String) (latJ lonJ : Json)
      (now : String) (file : Option Json) (l : List Json) (ioFails : Bool),
      loadCache file = Json.arr l →
      saveCacheEntry data city latJ lonJ now file ioFails
        = Except.ok (if ioFails then file
            else some (dumpCache (saveStep (mkEntryJson data city latJ lonJ now) l))) := by
    intro data city latJ lonJ now file l ioFails hload
    unfold saveCacheEntry
    rw [hload]
  refine ⟨hsave, ?_, ?_⟩
  · intro k lat lon attempts file l r now ioFails hk hload hres hst
    unfold getWeatherByCoordinates
    have hmiss : apiKeyMissing (some k) = false := by
      simp [apiKeyMissing, hk]
    rw [hmiss, hres]
    simp only [Bool.false_eq_true, if_false]
    have h200 : (r.status != 200) = false := by simp [hst]
    rw [h200]
    simp only [Bool.false_eq_true, if_false]
    rw [hsave r.body none (Json.num lat) (Json.num lon) now file l ioFails hload]
  · intro k city attempts file l r latJ lonJ now ioFails hk hc hload hres hst hcoord
    unfold getWeatherByCity
    have hmiss : apiKeyMissing (some k) = false := by
      simp [apiKeyMissing, hk]
    have hcity : (city == "") = false := by simp [hc]
    rw [hmiss, hcity, hres]
    simp only [Bool.false_eq_true, if_false]
    have h200 : (r.status != 200) = false := by simp [hst]
    rw [h200]
    simp only [Bool.false_eq_true, if_false]
    rw [hcoord]
    show (match saveCacheEntry r.body (some city) latJ lonJ now file ioFails with
      | Except.ok newFile => ((Except.ok r.body : Except FetchError Json), newFile)
      | Except.error m => (Except.error (FetchError.uncaught m), file)).1
        = Except.ok r.body
    rw [hsave r.body (some city) latJ lonJ now file l ioFails hload]

/-- Witness for C9: with a failing cache write, saving leaves the file
unchanged and both fetchers still return the 200 body. -/
theorem c9_cache_write_failure_swallowed_witness :
    saveCacheEntry Json.null none Json.null Json.null "now" none true
      = Except.ok none
    ∧ (getWeatherByCoordinates (some "APIKEY") 1 1
          (fun _ => AttemptOutcome.resp ⟨200, Json.obj []⟩) none true "now").1
        = Except.ok (Json.obj [])
    ∧ (getWeatherByCity (some "APIKEY") "Paris"
          (fun _ => AttemptOutcome.resp ⟨200, Json.obj []⟩) none true "now").1
        = Except.ok (Json.obj []) :=
  ⟨c9_cache_write_failure_swallowed.1 Json.null none Json.null Json.null "now"
      none [] true rfl,
   c9_cache_write_failure_swallowed.2.1 "APIKEY" 1 1
      (fun _ => AttemptOutcome.resp ⟨200, Json.obj []⟩) none [] ⟨200, Json.obj []⟩
      "now" true (by decide) rfl rfl rfl,
   c9_cache_write_failure_swallowed.2.2 "APIKEY" "Paris"
      (fun _ => AttemptOutcome.resp ⟨200, Json.obj []⟩) none [] ⟨200, Json.obj []⟩
      Json.null Json.null "now" true (by decide) (by decide) rfl rfl rfl rfl⟩


/-! ## Lemmas about the air-quality classifier -/

lemma aqi_table_sound :
    ∀ p ∈ aqiLevels, ∀ b ∈ p.2,
      1 ≤ b.index ∧ b.index ≤ 5 ∧ (b.index = 1 → b.status = "Хорошо") := by
  decide

lemma lookupAssoc_mem {α : Type} (k : String) (v : α) :
    ∀ l : List (String × α), lookupAssoc l k = some v → (k, v) ∈ l := by
  intro l
  induction l with
  | nil => intro h; exact Option.noConfusion h
  | cons p rest ih =>
    obtain ⟨p1, p2⟩ := p
    intro h
    unfold lookupAssoc at h
    by_cases he : p1 == k
    · rw [if_pos he] at h
      have hk : p1 = k := by simpa using he
      have hv : p2 = v := by injection h
      rw [hk, hv]
      exact List.mem_cons_self (k, v) rest
    · rw [if_neg he] at h
      exact List.mem_cons_of_mem (p1, p2) (ih h)

lemma classifyItem_sound (k : String) (v : Option ℚ) (lvl : PollLevel)
    (h : classifyItem k v = some lvl) :
    1 ≤ lvl.index ∧ lvl.index ≤ 5 ∧ (lvl.index = 1 → lvl.status = "Хорошо") := by
  unfold classifyItem at h
  cases hA : lookupAssoc aqiLevels k with
  | none =>
    rw [hA] at h
    simp at h
  | some brs =>
    rw [hA] at h
    cases v with
    | none => simp at h
    | some val =>
      simp only [] at h
      cases hB : classifyValue brs val with
      | none =>
        rw [hB] at h
        simp at h
      | some b =>
        rw [hB] at h
        simp only [Option.some.injEq] at h
        have hbmem : b ∈ brs := List.mem_of_find?_eq_some hB
        have htab := aqi_table_sound (k, brs) (lookupAssoc_mem k brs aqiLevels hA) b hbmem
        rw [← h]
        exact htab

lemma levelsOf_sound :
    ∀ comps, ∀ l ∈ levelsOf comps,
      1 ≤ l.index ∧ l.index ≤ 5 ∧ (l.index = 1 → l.status = "Хорошо") := by
  intro comps
  induction comps with
  | nil => intro l hl; exact absurd hl (List.not_mem_nil l)
  | cons kv rest ih =>
    obtain ⟨k, v⟩ := kv
    intro l hl
    unfold levelsOf levelsAssocOf at hl
    cases hC : classifyItem k v with
    | none =>
      rw [hC] at hl
      simp only [] at hl
      exact ih l hl
    | some lvl =>
      rw [hC] at hl
      simp only [List.map_cons, List.mem_cons] at hl
      rcases hl with hl | hl
      · rw [hl]
        exact classifyItem_sound k v lvl hC
      · exact ih l hl

lemma overallStep_pair (p : Nat × String) (l : PollLevel) :
    overallStep p l = (if l.index > p.1 then l.index else p.1,
                       if l.index > p.1 then l.status else p.2) := by
  unfold overallStep
  by_cases h : l.index > p.1 <;> simp [h]

lemma classify_fold :
    ∀ (comps : List (String × Option ℚ)) (L : List (String × PollLevel))
      (m : Nat) (s : String),
      comps.foldl classifyStep ⟨L, m, s⟩ =
        ⟨L ++ levelsAssocOf comps,
         (((levelsAssocOf comps).map Prod.snd).foldl overallStep (m, s)).1,
         (((levelsAssocOf comps).map Prod.snd).foldl overallStep (m, s)).2⟩ := by
  intro comps
  induction comps with
  | nil => intro L m s; simp [levelsAssocOf]
  | cons kv rest ih =>
    intro L m s
    obtain ⟨k, v⟩ := kv
    rw [List.foldl_cons]
    cases hC : classifyItem k v with
    | none =>
      have h1 : classifyStep ⟨L, m, s⟩ (k, v) = ⟨L, m, s⟩ := by
        unfold classifyStep
        rw [hC]
      have h2 : levelsAssocOf ((k, v) :: rest) = levelsAssocOf rest := by
        conv_lhs => rw [levelsAssocOf]
        simp only [hC]
      rw [h1, h2, ih L m s]
    | some lvl =>
      have h1 : classifyStep ⟨L, m, s⟩ (k, v)
          = ⟨L ++ [(k, lvl)], (overallStep (m, s) lvl).1, (overallStep (m, s) lvl).2⟩ := by
        unfold classifyStep
        rw [hC, overallStep_pair]
      have h2 : levelsAssocOf ((k, v) :: rest) = (k, lvl) :: levelsAssocOf rest := by
        conv_lhs => rw [levelsAssocOf]
        simp only [hC]
      rw [h1, h2,
        ih (L ++ [(k, lvl)]) (overallStep (m, s) lvl).1 (overallStep (m, s) lvl).2]
      simp only [List.map_cons, List.foldl_cons, List.append_assoc, List.cons_append,
        List.nil_append]

lemma le_listMaxFrom : ∀ (ls : List PollLevel) (m0 : Nat), m0 ≤ listMaxFrom ls m0 := by
  intro ls
  induction ls with
  | nil => intro m0; exact le_refl m0
  | cons l ls ih =>
    intro m0
    exact le_trans (le_max_left m0 l.index) (ih (max m0 l.index))

lemma listMaxFrom_attained :
    ∀ (ls : List PollLevel) (m0 : Nat),
      listMaxFrom ls m0 = m0 ∨ ∃ l, l ∈ ls ∧ l.index = listMaxFrom ls m0 := by
  intro ls
  induction ls with
  | nil => intro m0; exact Or.inl rfl
  | cons l ls ih =>
    intro m0
    have hcons : listMaxFrom (l :: ls) m0 = listMaxFrom ls (max m0 l.index) := rfl
    rcases ih (max m0 l.index) with h | ⟨x, hx, hxi⟩
    · by_cases hm : l.index ≤ m0
      · left
        rw [hcons, h, max_eq_left hm]
      · right
        refine ⟨l, List.mem_cons_self l ls, ?_⟩
        rw [hcons, h, max_eq_right (le_of_not_le hm)]
    · right
      exact ⟨x, List.mem_cons_of_mem l hx, by rw [hcons]; exact hxi⟩

lemma foldl_overallStep_eq :
    ∀ (ls : List PollLevel) (m0 : Nat) (s0 : String),
      ls.foldl overallStep (m0, s0)
        = (listMaxFrom ls m0,
           if listMaxFrom ls m0 = m0 then s0
           else ((ls.find? (fun l => l.index == listMaxFrom ls m0)).map
                   PollLevel.status).getD s0) := by
  intro ls
  induction ls with
  | nil => intro m0 s0; simp [listMaxFrom]
  | cons l ls ih =>
    intro m0 s0
    have hcons : listMaxFrom (l :: ls) m0 = listMaxFrom ls (max m0 l.index) := rfl
    rw [List.foldl_cons, overallStep_pair]
    by_cases hgt : l.index > m0
    · simp only [hgt, if_true]
      rw [ih l.index l.status, hcons, max_eq_right (le_of_lt hgt)]
      have hle : l.index ≤ listMaxFrom ls l.index := le_listMaxFrom ls l.index
      have hne : ¬ listMaxFrom ls l.index = m0 := by omega
      rw [if_neg hne]
      by_cases hlM : l.index = listMaxFrom ls l.index
      · rw [if_pos hlM.symm, List.find?_cons_of_pos _ (by simpa using hlM)]
        rfl
      · rw [if_neg (fun h => hlM h.symm),
          List.find?_cons_of_neg _ (by simpa using hlM)]
        rcases listMaxFrom_attained ls l.index with h | ⟨x, hx, hxi⟩
        · exact absurd h.symm hlM
        · have hsome : (ls.find? (fun y => y.index == listMaxFrom ls l.index)).isSome := by
            rw [List.find?_isSome]
            exact ⟨x, hx, by simp [hxi]⟩
          obtain ⟨y, hy⟩ := Option.isSome_iff_exists.mp hsome
          rw [hy]
          rfl
    · simp only [hgt, if_false]
      rw [ih m0 s0, hcons, max_eq_left (by omega)]
      by_cases hM0 : listMaxFrom ls m0 = m0
      · rw [if_pos hM0, if_pos hM0]
      · rw [if_neg hM0, if_neg hM0]
        have hle0 : m0 ≤ listMaxFrom ls m0 := le_listMaxFrom ls m0
        have hne : ¬ l.index = listMaxFrom ls m0 := by omega
        rw [List.find?_cons_of_neg _ (by simpa using hne)]

/-- C6: the overall index and status are the tier and label of whichever
classified pollutant reached the highest tier (every bracket is lower
bound inclusive, upper bound exclusive, tier 5 unbounded; ties keep the
first-seen maximum), defaulting to tier 1 with the Good label (Хорошо)
when nothing classifies; co = 20000 classifies as overall tier 5. -/
theorem c6_overall_worst_tier :
    (∀ (comps : List (String × Option ℚ)) (ext : Bool),
        (analyzeAirPollution comps ext).overall_index = maxIndexOf comps
        ∧ (analyzeAirPollution comps ext).overall_status
            = (((levelsOf comps).find? (fun l => l.index == maxIndexOf comps)).map
                 PollLevel.status).getD "Хорошо")
    ∧ (analyzeAirPollution [("co", some 20000)] true).overall_index = 5
    ∧ (analyzeAirPollution [("co", some 20000)] true).overall_status = "Очень плохо" := by
  refine ⟨?_, by decide, by decide⟩
  intro comps ext
  have hfold := classify_fold comps [] 1 "Хорошо"
  constructor
  · show (comps.foldl classifyStep ⟨[], 1, "Хорошо"⟩).maxIndex = maxIndexOf comps
    rw [hfold]
    show (((levelsAssocOf comps).map Prod.snd).foldl overallStep (1, "Хорошо")).1
      = maxIndexOf comps
    rw [foldl_overallStep_eq]
    rfl
  · show (comps.foldl classifyStep ⟨[], 1, "Хорошо"⟩).maxStatus
      = (((levelsOf comps).find? (fun l => l.index == maxIndexOf comps)).map
          PollLevel.status).getD "Хорошо"
    rw [hfold]
    show (((levelsAssocOf comps).map Prod.snd).foldl overallStep (1, "Хорошо")).2
      = (((levelsOf comps).find? (fun l => l.index == maxIndexOf comps)).map
          PollLevel.status).getD "Хорошо"
    rw [foldl_overallStep_eq]
    by_cases hM : listMaxFrom ((levelsAssocOf comps).map Prod.snd) 1 = 1
    · rw [if_pos hM]
      have hM2 : maxIndexOf comps = 1 := hM
      rw [hM2]
      cases hfind : (levelsOf comps).find? (fun l => l.index == 1) with
      | none => rfl
      | some x =>
        have hxmem := List.mem_of_find?_eq_some hfind
        have hxp := List.find?_some hfind
        have hxi : x.index = 1 := by simpa using hxp
        have hgood := (levelsOf_sound comps x hxmem).2.2 hxi
        exact hgood.symm
    · rw [if_neg hM]
      rfl

lemma insertByIndexDesc_skip (x : PollLevel) :
    ∀ (A B : List PollLevel), (∀ y ∈ A, x.index < y.index) →
      insertByIndexDesc x (A ++ B) = A ++ insertByIndexDesc x B := by
  intro A
  induction A with
  | nil => intro B _; rfl
  | cons y A ih =>
    intro B h
    have hy : x.index < y.index := h y (List.mem_cons_self y A)
    show insertByIndexDesc x (y :: (A ++ B)) = y :: (A ++ insertByIndexDesc x B)
    rw [insertByIndexDesc, if_pos hy, ih B (fun z hz => h z (List.mem_cons_of_mem y hz))]

lemma insertByIndexDesc_here (x : PollLevel) :
    ∀ B : List PollLevel, (∀ y ∈ B, y.index ≤ x.index) →
      insertByIndexDesc x B = x :: B := by
  intro B h
  cases B with
  | nil => rfl
  | cons y ys =>
    have hy : ¬ x.index < y.index :=
      Nat.not_lt.mpr (h y (List.mem_cons_self y ys))
    unfold insertByIndexDesc
    rw [if_neg hy]

lemma sortByIndexDesc_buckets :
    ∀ ls : List PollLevel, (∀ l ∈ ls, 1 ≤ l.index ∧ l.index ≤ 5) →
      sortByIndexDesc ls
        = tierBucket 5 ls ++ (tierBucket 4 ls ++ (tierBucket 3 ls
            ++ (tierBucket 2 ls ++ tierBucket 1 ls))) := by
  intro ls
  induction ls with
  | nil => intro _; rfl
  | cons x xs ih =>
    intro h
    have hxs : ∀ l ∈ xs, 1 ≤ l.index ∧ l.index ≤ 5 :=
      fun l hl => h l (List.mem_cons_of_mem x hl)
    have hbmem : ∀ t : Nat, ∀ y ∈ tierBucket t xs, y.index = t := by
      intro t y hy
      have := (List.mem_filter.mp hy).2
      simpa using this
    show insertByIndexDesc x (sortByIndexDesc xs) = _
    rw [ih hxs]
    obtain ⟨xv, xi, xst, xn⟩ := x
    have hx := h ⟨xv, xi, xst, xn⟩ (List.mem_cons_self _ xs)
    have hx1 : 1 ≤ xi := hx.1
    have hx5 : xi ≤ 5 := hx.2
    interval_cases xi
    · -- tier 1: walk past buckets 5..2, land in front of bucket 1
      rw [insertByIndexDesc_skip ⟨xv, 1, xst, xn⟩ (tierBucket 5 xs) _ (fun y hy => by
            have := hbmem 5 y hy; show 1 < y.index; omega),
          insertByIndexDesc_skip ⟨xv, 1, xst, xn⟩ (tierBucket 4 xs) _ (fun y hy => by
            have := hbmem 4 y hy; show 1 < y.index; omega),
          insertByIndexDesc_skip ⟨xv, 1, xst, xn⟩ (tierBucket 3 xs) _ (fun y hy => by
            have := hbmem 3 y hy; show 1 < y.index; omega),
          insertByIndexDesc_skip ⟨xv, 1, xst, xn⟩ (tierBucket 2 xs) _ (fun y hy => by
            have := hbmem 2 y hy; show 1 < y.index; omega),
          insertByIndexDesc_here ⟨xv, 1, xst, xn⟩ (tierBucket 1 xs) (fun y hy => by
            have := hbmem 1 y hy; show y.index ≤ 1; omega)]
      simp [tierBucket, List.filter_cons]
    · -- tier 2
      rw [insertByIndexDesc_skip ⟨xv, 2, xst, xn⟩ (tierBucket 5 xs) _ (fun y hy => by
            have := hbmem 5 y hy; show 2 < y.index; omega),
          insertByIndexDesc_skip ⟨xv, 2, xst, xn⟩ (tierBucket 4 xs) _ (fun y hy => by
            have := hbmem 4 y hy; show 2 < y.index; omega),
          insertByIndexDesc_skip ⟨xv, 2, xst, xn⟩ (tierBucket 3 xs) _ (fun y hy => by
            have := hbmem 3 y hy; show 2 < y.index; omega),
          insertByIndexDesc_here ⟨xv, 2, xst, xn⟩ (tierBucket 2 xs ++ tierBucket 1 xs)
            (fun y hy => by
              show y.index ≤ 2
              rcases List.mem_append.mp hy with hm | hm
              · have := hbmem 2 y hm; omega
              · have := hbmem 1 y hm; omega)]
      simp [tierBucket, List.filter_cons]
    · -- tier 3
      rw [insertByIndexDesc_skip ⟨xv, 3, xst, xn⟩ (tierBucket 5 xs) _ (fun y hy => by
            have := hbmem 5 y hy; show 3 < y.index; omega),
          insertByIndexDesc_skip ⟨xv, 3, xst, xn⟩ (tierBucket 4 xs) _ (fun y hy => by
            have := hbmem 4 y hy; show 3 < y.index; omega),
          insertByIndexDesc_here ⟨xv, 3, xst, xn⟩
            (tierBucket 3 xs ++ (tierBucket 2 xs ++ tierBucket 1 xs)) (fun y hy => by
              show y.index ≤ 3
              rcases List.mem_append.mp hy with hm | hm
              · have := hbmem 3 y hm; omega
              · rcases List.mem_append.mp hm with hm2 | hm2
                · have := hbmem 2 y hm2; omega
                · have := hbmem 1 y hm2; omega)]
      simp [tierBucket, List.filter_cons]
    · -- tier 4
      rw [insertByIndexDesc_skip ⟨xv, 4, xst, xn⟩ (tierBucket 5 xs) _ (fun y hy => by
            have := hbmem 5 y hy; show 4 < y.index; omega),
          insertByIndexDesc_here ⟨xv, 4, xst, xn⟩
            (tierBucket 4 xs ++ (tierBucket 3 xs ++ (tierBucket 2 xs ++ tierBucket 1 xs)))
            (fun y hy => by
              show y.index ≤ 4
              rcases List.mem_append.mp hy with hm | hm
              · have := hbmem 4 y hm; omega
              · rcases List.mem_append.mp hm with hm2 | hm2
                · have := hbmem 3 y hm2; omega
                · rcases List.mem_append.mp hm2 with hm3 | hm3
                  · have := hbmem 2 y hm3; omega
                  · have := hbmem 1 y hm3; omega)]
      simp [tierBucket, List.filter_cons]
    · -- tier 5
      rw [insertByIndexDesc_here ⟨xv, 5, xst, xn⟩
            (tierBucket 5 xs ++ (tierBucket 4 xs ++ (tierBucket 3 xs
              ++ (tierBucket 2 xs ++ tierBucket 1 xs)))) (fun y hy => by
              show y.index ≤ 5
              rcases List.mem_append.mp hy with hm | hm
              · have := hbmem 5 y hm; omega
              · rcases List.mem_append.mp hm with hm2 | hm2
                · have := hbmem 4 y hm2; omega
                · rcases List.mem_append.mp hm2 with hm3 | hm3
                  · have := hbmem 3 y hm3; omega
                  · rcases List.mem_append.mp hm3 with hm4 | hm4
                    · have := hbmem 2 y hm4; omega
                    · have := hbmem 1 y hm4; omega)]
      simp [tierBucket, List.filter_cons]

lemma tierBucket_filter_ge (t : Nat) (ht : 2 ≤ t) (ls : List PollLevel) :
    tierBucket t (ls.filter (fun l => decide (l.index ≥ 2))) = tierBucket t ls := by
  unfold tierBucket
  rw [List.filter_filter]
  apply List.filter_congr
  intro a _
  by_cases hq : a.index = t
  · have h2 : decide (a.index ≥ 2) = true := decide_eq_true (by omega)
    simp [h2]
  · simp [hq]

lemma tierBucket_one_filter (ls : List PollLevel) :
    tierBucket 1 (ls.filter (fun l => decide (l.index ≥ 2))) = [] := by
  unfold tierBucket
  rw [List.filter_filter]
  rw [List.filter_eq_nil_iff]
  intro a _
  simp
  omega

lemma analyze_extended_fields (comps : List (String × Option ℚ)) :
    (analyzeAirPollution comps true).exceeded_norms
      = some (sortByIndexDesc ((levelsOf comps).filter (fun l => decide (l.index ≥ 2))))
    ∧ (analyzeAirPollution comps true).component_levels = some (levelsAssocOf comps) := by
  have hfold := classify_fold comps [] 1 "Хорошо"
  unfold analyzeAirPollution
  rw [hfold]
  constructor <;> simp [levelsOf]

/-- C7: in extended mode the result carries (a) exactly the classified
pollutants of tier at least 2, sorted by descending tier with ties in
original iteration order (rendered as the tier-5..tier-2 buckets in
order), and (b) the full per-pollutant classification map; the
so2 = 15, pm10 = 120 query yields overall tier 4 and an exceeded list
holding exactly the pm10 record. -/
theorem c7_extended_breakdown :
    (∀ comps : List (String × Option ℚ),
        (analyzeAirPollution comps true).exceeded_norms
          = some (tierBucket 5 (levelsOf comps) ++ (tierBucket 4 (levelsOf comps)
              ++ (tierBucket 3 (levelsOf comps) ++ tierBucket 2 (levelsOf comps))))
        ∧ (analyzeAirPollution comps true).component_levels
          = some (levelsAssocOf comps))
    ∧ (analyzeAirPollution [("so2", some 15), ("pm10", some 120)] true).overall_index = 4
    ∧ (analyzeAirPollution [("so2", some 15), ("pm10", some 120)] true).exceeded_norms
        = some [⟨120, 4, "Плохо", "PM10"⟩] := by
  refine ⟨?_, by decide, by decide⟩
  intro comps
  obtain ⟨he, hc⟩ := analyze_extended_fields comps
  refine ⟨?_, hc⟩
  rw [he]
  have hbounds : ∀ l ∈ (levelsOf comps).filter (fun l => decide (l.index ≥ 2)),
      1 ≤ l.index ∧ l.index ≤ 5 := by
    intro l hl
    have := levelsOf_sound comps l (List.mem_filter.mp hl).1
    exact ⟨this.1, this.2.1⟩
  rw [sortByIndexDesc_buckets _ hbounds,
    tierBucket_filter_ge 5 (by omega), tierBucket_filter_ge 4 (by omega),
    tierBucket_filter_ge 3 (by omega), tierBucket_filter_ge 2 (by omega),
    tierBucket_one_filter]
  simp
